import Mathlib

set_option maxRecDepth 8000

/-!
Verification model of the `prometheus-telegram-bot` core: the billing-cycle
calculation, the duration and byte formatters, the label-matcher builder, the
query-result extraction and the report aggregation of `GetInstanceInfo`,
shallowly embedded from the Go sources (the `internal/prometheus` client in
its newer revision, and the `utils` package).

Time model: a Go `time.Time` is modelled as integer epoch seconds
(seconds since 1970-01-01T00:00:00) with the `Local` zone taken to be UTC, so
`Year()/Month()/Day()` are obtained through a civil (proleptic Gregorian)
conversion of the day number — the calendar Go's `time` package implements.
`time.Date` normalizes out-of-range month and day arguments (a day past the
end of the month rolls into the following month); the model reproduces this
with a day-number function that is affine in the day argument and
floor-normalizes the month argument.  `civilFromDays` computes the inverse
civil date with the year-of-era obtained by a greatest-fit search, which is
extensionally the quotient Go's division-based conversion computes; the pair
is proved to be a bijection between day numbers and valid civil dates
(`civil_valid`, `civilDays_roundtrip`).

Float model: Go float64 byte counts are modelled as rationals, and the whole
second / whole day durations the program constructs as integers; `%.2f`
formatting is modelled as exact round-half-to-even at the hundredths.
-/


def isLeapYear (y : Int) : Bool :=
  (y % 4 == 0 && y % 100 != 0) || y % 400 == 0

theorem isLeapYear_true_iff (y : Int) :
    isLeapYear y = true ↔ ((y % 4 = 0 ∧ ¬ y % 100 = 0) ∨ y % 400 = 0) := by
  simp [isLeapYear, Bool.or_eq_true, Bool.and_eq_true, beq_iff_eq, bne_iff_ne]

def daysInMonth (y m : Int) : Int :=
  if m = 2 then (if isLeapYear y then 29 else 28)
  else if m = 4 ∨ m = 6 ∨ m = 9 ∨ m = 11 then 30
  else 31

def civilDays (y m d : Int) : Int :=
  let y2 := if m ≤ 2 then y - 1 else y
  let era := y2 / 400
  let yoe := y2 - era * 400
  let mp := if m ≤ 2 then m + 9 else m - 3
  let doy := (153 * mp + 2) / 5 + d - 1
  let doe := yoe * 365 + yoe / 4 - yoe / 100 + doy
  era * 146097 + doe - 719468

def yearOffsetOfEra (n : Int) : Int := 365 * n + n / 4 - n / 100

def yoeSearch (doe : Int) : Nat → Int
  | 0 => 0
  | n+1 => if yearOffsetOfEra ((n : Int) + 1) ≤ doe then (n : Int) + 1 else yoeSearch doe n

def eraOf (z : Int) : Int := (z + 719468) / 146097

def doeOf (z : Int) : Int := z + 719468 - eraOf z * 146097

def yoeOf (z : Int) : Int := yoeSearch (doeOf z) 399

def doyOf (z : Int) : Int := doeOf z - yearOffsetOfEra (yoeOf z)

def mpOf (z : Int) : Int := (5 * doyOf z + 2) / 153

def monthOf (z : Int) : Int := if mpOf z < 10 then mpOf z + 3 else mpOf z - 9

def yearOf (z : Int) : Int :=
  if monthOf z ≤ 2 then yoeOf z + eraOf z * 400 + 1 else yoeOf z + eraOf z * 400

def dayOf (z : Int) : Int := doyOf z - (153 * mpOf z + 2) / 5 + 1

def civilFromDays (z : Int) : Int × Int × Int := (yearOf z, monthOf z, dayOf z)

theorem yearOffset_step (n : Int) :
    365 ≤ yearOffsetOfEra (n + 1) - yearOffsetOfEra n ∧
    yearOffsetOfEra (n + 1) - yearOffsetOfEra n ≤ 366 ∧
    (yearOffsetOfEra (n + 1) - yearOffsetOfEra n = 366 ↔
      ((n + 1) % 4 = 0 ∧ ¬ (n + 1) % 100 = 0)) := by
  simp only [yearOffsetOfEra]
  omega

theorem yearOffset_mono (a b : Int) (h : a ≤ b) :
    yearOffsetOfEra a ≤ yearOffsetOfEra b := by
  simp only [yearOffsetOfEra]
  omega

theorem yoeSearch_spec (doe : Int) (h0 : 0 ≤ doe) : ∀ n : Nat,
    0 ≤ yoeSearch doe n ∧ yoeSearch doe n ≤ (n : Int) ∧
    yearOffsetOfEra (yoeSearch doe n) ≤ doe ∧
    ∀ k : Int, yoeSearch doe n < k → k ≤ (n : Int) → doe < yearOffsetOfEra k := by
  intro n
  induction n with
  | zero =>
    refine ⟨le_refl 0, le_refl 0, ?_, ?_⟩
    · simpa [yoeSearch, yearOffsetOfEra] using h0
    · intro k h1 h2
      simp only [yoeSearch] at h1
      norm_num at h2
      omega
  | succ n ih =>
    obtain ⟨ih1, ih2, ih3, ih4⟩ := ih
    by_cases h : yearOffsetOfEra ((n : Int) + 1) ≤ doe
    · refine ⟨?_, ?_, ?_, ?_⟩ <;> simp only [yoeSearch, if_pos h]
      · omega
      · push_cast
        omega
      · exact h
      · intro k h1 h2
        push_cast at h1 h2 ⊢
        omega
    · refine ⟨?_, ?_, ?_, ?_⟩ <;> simp only [yoeSearch, if_neg h]
      · exact ih1
      · push_cast
        omega
      · exact ih3
      · intro k h1 h2
        push_cast at h2
        rcases eq_or_lt_of_le h2 with h3 | h3
        · rw [h3]
          omega
        · exact ih4 k h1 (by omega)

theorem doeOf_bounds (z : Int) : 0 ≤ doeOf z ∧ doeOf z ≤ 146096 := by
  simp only [doeOf, eraOf]
  omega

theorem yoeOf_spec (z : Int) :
    0 ≤ yoeOf z ∧ yoeOf z ≤ 399 ∧
    yearOffsetOfEra (yoeOf z) ≤ doeOf z ∧
    ∀ k : Int, yoeOf z < k → k ≤ 399 → doeOf z < yearOffsetOfEra k := by
  have hb := doeOf_bounds z
  have h := yoeSearch_spec (doeOf z) hb.1 399
  simpa [yoeOf] using h

theorem doyOf_bounds (z : Int) :
    0 ≤ doyOf z ∧ doyOf z ≤ 365 ∧
    (doyOf z = 365 →
      (yoeOf z = 399 ∨ ((yoeOf z + 1) % 4 = 0 ∧ ¬ (yoeOf z + 1) % 100 = 0))) := by
  have hb := doeOf_bounds z
  have hy := yoeOf_spec z
  have hstep := yearOffset_step (yoeOf z)
  have hdoyeq : doyOf z = doeOf z - yearOffsetOfEra (yoeOf z) := rfl
  rcases le_or_lt (yoeOf z) 398 with h | h
  · have hcap := hy.2.2.2 (yoeOf z + 1) (by omega) (by omega)
    refine ⟨by omega, by omega, ?_⟩
    intro hd
    right
    rw [← hstep.2.2]
    omega
  · have h399 : yoeOf z = 399 := by omega
    have hyo : yearOffsetOfEra (yoeOf z) = 145731 := by rw [h399]; decide
    exact ⟨by omega, by omega, fun _ => Or.inl h399⟩

theorem mp_table (doy mp d : Int) (h0 : 0 ≤ doy) (h1 : doy ≤ 365)
    (hmp : mp = (5 * doy + 2) / 153)
    (hd : d = doy - (153 * mp + 2) / 5 + 1) :
    0 ≤ mp ∧ mp ≤ 11 ∧ 1 ≤ d ∧ d ≤ 31 ∧
    ((mp = 1 ∨ mp = 3 ∨ mp = 6 ∨ mp = 8) → d ≤ 30) ∧
    (mp = 11 → d = doy - 336) := by
  have hb1 : 0 ≤ mp := by omega
  have hb2 : mp ≤ 11 := by omega
  interval_cases mp <;> omega

theorem civil_valid (z : Int) :
    1 ≤ monthOf z ∧ monthOf z ≤ 12 ∧ 1 ≤ dayOf z ∧
    dayOf z ≤ daysInMonth (yearOf z) (monthOf z) ∧
    civilDays (yearOf z) (monthOf z) (dayOf z) = z := by
  have hdoe := doeOf_bounds z
  have hyoe := yoeOf_spec z
  have hdoy := doyOf_bounds z
  have hmp := mp_table (doyOf z) (mpOf z) (dayOf z) hdoy.1 hdoy.2.1 (by simp [mpOf]) (by simp [dayOf])
  have hym : monthOf z = if mpOf z < 10 then mpOf z + 3 else mpOf z - 9 := rfl
  have hyy : yearOf z = if monthOf z ≤ 2 then yoeOf z + eraOf z * 400 + 1 else yoeOf z + eraOf z * 400 := rfl
  have hdoyeq : doyOf z = doeOf z - yearOffsetOfEra (yoeOf z) := rfl
  have hdayeq : dayOf z = doyOf z - (153 * mpOf z + 2) / 5 + 1 := rfl
  have hdoeeq : doeOf z = z + 719468 - eraOf z * 146097 := rfl
  have heraeq : eraOf z = (z + 719468) / 146097 := rfl
  refine ⟨by omega, by omega, hmp.2.2.1, ?_, ?_⟩
  · -- day within month length
    simp only [daysInMonth]
    split_ifs with h2 hleap h30
    · -- February
      have hmp11 : mpOf z = 11 := by omega
      have := hmp.2.2.2.2.2 hmp11
      omega
    · -- February, non-leap year: need dayOf ≤ 28
      have hmp11 : mpOf z = 11 := by omega
      have hdeq := hmp.2.2.2.2.2 hmp11
      rw [isLeapYear_true_iff] at hleap
      push_neg at hleap
      -- if dayOf = 29 then doy = 365, so leapness holds, contradiction
      by_contra hcon
      have h29 : dayOf z = 29 := by omega
      have h365 : doyOf z = 365 := by omega
      have := hdoy.2.2 h365
      -- yearOf = yoe + era*400 + 1  (February, monthOf ≤ 2)
      have hy2 : yearOf z = yoeOf z + eraOf z * 400 + 1 := by
        rw [hyy, if_pos (by omega)]
      rcases this with h399 | hmod
      · have := hleap.2
        omega
      · have := hleap.1
        omega
    · -- 30-day months
      have : mpOf z = 1 ∨ mpOf z = 3 ∨ mpOf z = 6 ∨ mpOf z = 8 := by omega
      exact hmp.2.2.2.2.1 this
    · -- 31-day months
      exact hmp.2.2.2.1
  · -- round-trip: civilDays (yearOf z) (monthOf z) (dayOf z) = z
    have hyoeeq : yearOffsetOfEra (yoeOf z) = 365 * yoeOf z + yoeOf z / 4 - yoeOf z / 100 := rfl
    have hq1 : (yoeOf z + eraOf z * 400) / 400 = eraOf z := by omega
    have hq3 : (yoeOf z + eraOf z * 400 - (yoeOf z + eraOf z * 400) / 400 * 400) / 4
        = yoeOf z / 4 := by
      rw [hq1]
      congr 1
      ring
    have hq4 : (yoeOf z + eraOf z * 400 - (yoeOf z + eraOf z * 400) / 400 * 400) / 100
        = yoeOf z / 100 := by
      rw [hq1]
      congr 1
      ring
    by_cases hc : mpOf z < 10
    · have hm3 : monthOf z = mpOf z + 3 := by rw [hym, if_pos hc]
      have hy2 : yearOf z = yoeOf z + eraOf z * 400 := by
        rw [hyy, if_neg (by omega)]
      simp only [civilDays]
      rw [hm3, hy2]
      split_ifs <;> omega
    · have hm3 : monthOf z = mpOf z - 9 := by rw [hym, if_neg hc]
      have hy2 : yearOf z = yoeOf z + eraOf z * 400 + 1 := by
        rw [hyy, if_pos (by omega)]
      simp only [civilDays]
      rw [hm3, hy2]
      rw [show yoeOf z + eraOf z * 400 + 1 - 1 = yoeOf z + eraOf z * 400 from by ring]
      split_ifs <;> omega

example : civilFromDays 0 = (1970, 1, 1) := by decide
example : civilFromDays 19813 = (2024, 3, 31) := by decide
example : civilDays 2024 3 31 = 19813 := by decide
theorem civilDays_day_shift (y m d : Int) :
    civilDays y m d = civilDays y m 1 + d - 1 := by
  simp only [civilDays]
  split_ifs <;> omega

theorem daysInMonth_bounds (y m : Int) :
    28 ≤ daysInMonth y m ∧ daysInMonth y m ≤ 31 := by
  simp only [daysInMonth]
  split_ifs <;> omega

theorem civilDays_month_succ (y m : Int) (h1 : 1 ≤ m) (h2 : m ≤ 12) :
    civilDays (if m = 12 then y + 1 else y) (if m = 12 then 1 else m + 1) 1
      = civilDays y m 1 + daysInMonth y m := by
  have hleap := isLeapYear_true_iff y
  by_cases hb : isLeapYear y = true
  · have hP := hleap.mp hb
    interval_cases m <;> simp only [civilDays, daysInMonth, hb] <;> norm_num <;> omega
  · have hP : ¬ ((y % 4 = 0 ∧ ¬ y % 100 = 0) ∨ y % 400 = 0) := fun hp => hb (hleap.mpr hp)
    have hb2 : isLeapYear y = false := by simpa using hb
    interval_cases m <;> simp only [civilDays, daysInMonth, hb2] <;> norm_num <;> omega

theorem components_of (E YOE DOY z : Int)
    (hE : 0 ≤ YOE) (hY : YOE ≤ 399) (hD0 : 0 ≤ DOY) (hD1 : DOY ≤ 365)
    (hleap : DOY = 365 → YOE = 399 ∨ ((YOE + 1) % 4 = 0 ∧ ¬ (YOE + 1) % 100 = 0))
    (hz : z + 719468 = E * 146097 + (365 * YOE + YOE / 4 - YOE / 100 + DOY)) :
    eraOf z = E ∧ yoeOf z = YOE ∧ doyOf z = DOY := by
  have h1 : eraOf z = E := by
    simp only [eraOf]
    omega
  have h2 : doeOf z = 365 * YOE + YOE / 4 - YOE / 100 + DOY := by
    simp only [doeOf]
    rw [h1]
    omega
  have hyoeval : yearOffsetOfEra YOE = 365 * YOE + YOE / 4 - YOE / 100 := rfl
  have hspec := yoeOf_spec z
  have h3 : yoeOf z = YOE := by
    rcases lt_trichotomy (yoeOf z) YOE with h | h | h
    · have hlt := hspec.2.2.2 YOE h hY
      omega
    · exact h
    · exfalso
      have hmono := yearOffset_mono (YOE + 1) (yoeOf z) (by omega)
      have hle := hspec.2.2.1
      have hstep := yearOffset_step YOE
      rcases lt_or_le DOY 365 with hc | hc
      · omega
      · have h365 : DOY = 365 := by omega
        rcases hleap h365 with h399 | hmod
        · omega
        · have : yearOffsetOfEra (YOE + 1) - yearOffsetOfEra YOE = 366 := hstep.2.2.mpr hmod
          omega
  have h4 : doyOf z = DOY := by
    simp only [doyOf]
    rw [h3, h2, hyoeval]
    ring
  exact ⟨h1, h3, h4⟩

theorem civilFrom_eq (z E YOE DOY MP d : Int)
    (h0 : 0 ≤ YOE) (h1 : YOE ≤ 399)
    (hMP0 : 0 ≤ MP) (hMP1 : MP ≤ 11)
    (hDOY : DOY = (153 * MP + 2) / 5 + d - 1)
    (hd1 : 1 ≤ d)
    (hdub : MP = 11 → d ≤ 29)
    (hdub2 : MP ≤ 10 → DOY < (153 * (MP + 1) + 2) / 5)
    (hleap : DOY = 365 → YOE = 399 ∨ ((YOE + 1) % 4 = 0 ∧ ¬ (YOE + 1) % 100 = 0))
    (hz : z + 719468 = E * 146097 + (365 * YOE + YOE / 4 - YOE / 100 + DOY)) :
    eraOf z = E ∧ yoeOf z = YOE ∧ doyOf z = DOY ∧ mpOf z = MP ∧ dayOf z = d := by
  have hD0 : 0 ≤ DOY := by omega
  have hD1 : DOY ≤ 365 := by
    rcases le_or_lt MP 10 with h | h
    · have := hdub2 h
      omega
    · have hMP11 : MP = 11 := by omega
      have := hdub hMP11
      omega
  obtain ⟨hEe, hYe, hDe⟩ := components_of E YOE DOY z h0 h1 hD0 hD1 hleap hz
  have hMPe : mpOf z = MP := by
    have : mpOf z = (5 * doyOf z + 2) / 153 := rfl
    rw [hDe] at this
    rw [this]
    interval_cases MP <;> omega
  have hde : dayOf z = d := by
    have : dayOf z = doyOf z - (153 * mpOf z + 2) / 5 + 1 := rfl
    rw [hDe, hMPe] at this
    omega
  exact ⟨hEe, hYe, hDe, hMPe, hde⟩

theorem civilDays_roundtrip (y m d : Int) (hm1 : 1 ≤ m) (hm2 : m ≤ 12)
    (hd1 : 1 ≤ d) (hd2 : d ≤ daysInMonth y m) :
    yearOf (civilDays y m d) = y ∧ monthOf (civilDays y m d) = m ∧
    dayOf (civilDays y m d) = d := by
  have hdimb := daysInMonth_bounds y m
  by_cases hmle : m ≤ 2
  · -- January or February: shifted year is y - 1, MP = m + 9
    have hfeb : m = 2 → daysInMonth y m = if isLeapYear y then 29 else 28 := by
      intro h
      rw [h]
      simp [daysInMonth]
    have hjan : m = 1 → daysInMonth y m = 31 := by
      intro h
      rw [h]
      simp [daysInMonth]
    obtain ⟨hEe, hYe, hDe, hMPe, hde⟩ :=
      civilFrom_eq (civilDays y m d) ((y - 1) / 400) ((y - 1) % 400)
        ((153 * (m + 9) + 2) / 5 + d - 1) (m + 9) d
        (by omega) (by omega) (by omega) (by omega) rfl hd1
        (by -- MP = 11 → d ≤ 29
          intro h
          have hm2' : m = 2 := by omega
          have := hfeb hm2'
          split_ifs at this <;> omega)
        (by -- MP ≤ 10 → DOY < next offset
          intro h
          have hm1' : m = 1 := by omega
          have := hjan hm1'
          omega)
        (by -- DOY = 365 → leapness of YOE + 1
          intro h365
          have hm2' : m = 2 := by
            rcases (by omega : m = 1 ∨ m = 2) with h | h
            · rw [h] at h365
              have := hjan h
              omega
            · exact h
          have hd29 : d = 29 := by
            rw [hm2'] at h365
            omega
          have hdim := hfeb hm2'
          have hlp : isLeapYear y = true := by
            by_contra hc
            simp only [Bool.not_eq_true] at hc
            rw [hc] at hdim
            simp at hdim
            omega
          rw [isLeapYear_true_iff] at hlp
          rcases hlp with ⟨h4, h100⟩ | h400
          · right
            constructor <;> omega
          · left
            omega)
        (by -- day-count equation
          simp only [civilDays]
          rw [if_pos hmle, if_pos hmle]
          omega)
    have hmon : monthOf (civilDays y m d) = m := by
      simp only [monthOf]
      rw [hMPe, if_neg (by omega)]
      ring
    have hyear : yearOf (civilDays y m d) = y := by
      simp only [yearOf]
      rw [hmon, if_pos hmle, hYe, hEe]
      omega
    exact ⟨hyear, hmon, hde⟩
  · -- March through December: shifted year is y, MP = m - 3
    have hoffb : (153 * (m - 3) + 2) / 5 ≤ 275 := by omega
    obtain ⟨hEe, hYe, hDe, hMPe, hde⟩ :=
      civilFrom_eq (civilDays y m d) (y / 400) (y % 400)
        ((153 * (m - 3) + 2) / 5 + d - 1) (m - 3) d
        (by omega) (by omega) (by omega) (by omega) rfl hd1
        (by intro h; omega)
        (by -- MP ≤ 10 → DOY < next offset: d ≤ month length from table
          intro _
          have hdm := hd2
          interval_cases m <;> norm_num [daysInMonth] at hdm <;> omega)
        (by -- DOY ≤ 305 < 365, vacuous
          intro h365
          exfalso
          omega)
        (by simp only [civilDays]
            rw [if_neg hmle, if_neg hmle]
            omega)
    have hmon : monthOf (civilDays y m d) = m := by
      simp only [monthOf]
      rw [hMPe, if_pos (by omega)]
      ring
    have hyear : yearOf (civilDays y m d) = y := by
      simp only [yearOf]
      rw [hmon, if_neg hmle, hYe, hEe]
      omega
    exact ⟨hyear, hmon, hde⟩
def normYM (y m : Int) : Int × Int := (y + (m - 1) / 12, (m - 1) % 12 + 1)

def dateToDays (y m d : Int) : Int := civilDays (normYM y m).1 (normYM y m).2 d

def mkDateSec (y m d : Int) : Int := 86400 * dateToDays y m d

theorem sec_div (t : Int) : (86400 * t) / 86400 = t := by omega

theorem normYM_id_fst (y m : Int) (h1 : 1 ≤ m) (h2 : m ≤ 12) : (normYM y m).1 = y := by
  simp only [normYM]
  omega

theorem normYM_id_snd (y m : Int) (h1 : 1 ≤ m) (h2 : m ≤ 12) : (normYM y m).2 = m := by
  simp only [normYM]
  omega

theorem normYM_succ_fst (y m : Int) (h1 : 1 ≤ m) (h2 : m ≤ 12) :
    (normYM y (m + 1)).1 = if m = 12 then y + 1 else y := by
  simp only [normYM]
  split_ifs <;> omega

theorem normYM_succ_snd (y m : Int) (h1 : 1 ≤ m) (h2 : m ≤ 12) :
    (normYM y (m + 1)).2 = if m = 12 then 1 else m + 1 := by
  simp only [normYM]
  split_ifs <;> omega

theorem dateToDays_id (y m d : Int) (h1 : 1 ≤ m) (h2 : m ≤ 12) :
    dateToDays y m d = civilDays y m 1 + d - 1 := by
  simp only [dateToDays]
  rw [normYM_id_fst y m h1 h2, normYM_id_snd y m h1 h2, civilDays_day_shift]

theorem lastDayOf (Y M : Int) (h1 : 1 ≤ M) (h2 : M ≤ 12) :
    dayOf (mkDateSec Y (M + 1) 0 / 86400) = daysInMonth Y M := by
  have hK3 := civilDays_month_succ Y M h1 h2
  have hdim := daysInMonth_bounds Y M
  have heq : dateToDays Y (M + 1) 0 = civilDays Y M (daysInMonth Y M) := by
    simp only [dateToDays]
    rw [normYM_succ_fst Y M h1 h2, normYM_succ_snd Y M h1 h2,
      civilDays_day_shift _ _ 0, hK3, civilDays_day_shift Y M (daysInMonth Y M)]
    ring
  have hrt := civilDays_roundtrip Y M (daysInMonth Y M) h1 h2 (by omega) le_rfl
  simp only [mkDateSec]
  rw [heq, sec_div]
  exact hrt.2.2

theorem daysInMonth_next31 (Y M : Int) (h1 : 1 ≤ M) (h2 : M ≤ 12)
    (h : daysInMonth Y M < 31) :
    daysInMonth (if M = 12 then Y + 1 else Y) (if M = 12 then 1 else M + 1) = 31 := by
  interval_cases M <;> simp_all [daysInMonth]

/-- The month-shift block of `GetInstanceInfo` (the previous-month and the
next-month copies have the identical shape): build `time.Date(Y, M, day)`,
read the last day of the month of that (already normalized) date via
`time.Date(r.Year(), r.Month()+1, 0).Day()`, and replace the date when the
anchor day exceeds it. -/
def shiftWithClamp (Y M day : Int) : Int :=
  let r := mkDateSec Y M day
  let ry := yearOf (r / 86400)
  let rm := monthOf (r / 86400)
  let ldom := dayOf (mkDateSec ry (rm + 1) 0 / 86400)
  if ldom < day then mkDateSec ry rm ldom else r

def prevY (y m : Int) : Int := if m - 1 < 1 then y - 1 else y

def prevM (y m : Int) : Int := if m - 1 < 1 then 12 else m - 1

def nextY (y m : Int) : Int := if 12 < m + 1 then y + 1 else y

def nextM (y m : Int) : Int := if 12 < m + 1 then 1 else m + 1

/-- The validity check inside `shiftWithClamp` is dead code: `time.Date`
normalizes an overflowing day into the following month before the check reads
the month back, so the clamp never fires and the result is the plain affine
day count from the start of month `(Y, M)`. -/
theorem shiftWithClamp_eq (Y M a : Int) (h1 : 1 ≤ M) (h2 : M ≤ 12)
    (ha1 : 1 ≤ a) (ha2 : a ≤ 31) :
    shiftWithClamp Y M a = 86400 * (civilDays Y M 1 + a - 1) := by
  have hdim := daysInMonth_bounds Y M
  have hdd : dateToDays Y M a = civilDays Y M 1 + a - 1 := dateToDays_id Y M a h1 h2
  rcases le_or_lt a (daysInMonth Y M) with hc | hc
  · have hzval : dateToDays Y M a = civilDays Y M a := by
      rw [hdd, ← civilDays_day_shift]
    have hrt := civilDays_roundtrip Y M a h1 h2 ha1 hc
    have hy : yearOf (mkDateSec Y M a / 86400) = Y := by
      simp only [mkDateSec]
      rw [sec_div, hzval]
      exact hrt.1
    have hm : monthOf (mkDateSec Y M a / 86400) = M := by
      simp only [mkDateSec]
      rw [sec_div, hzval]
      exact hrt.2.1
    simp only [shiftWithClamp]
    rw [hy, hm, lastDayOf Y M h1 h2, if_neg (by omega)]
    simp only [mkDateSec]
    rw [hdd]
  · -- the anchor day overflows the month: the date rolls into the next month
    have hnx := civilDays_month_succ Y M h1 h2
    have hd31 := daysInMonth_next31 Y M h1 h2 (by omega)
    obtain ⟨NY, hNY⟩ : ∃ t, (if M = 12 then Y + 1 else Y) = t := ⟨_, rfl⟩
    obtain ⟨NM, hNM⟩ : ∃ t, (if M = 12 then 1 else M + 1) = t := ⟨_, rfl⟩
    rw [hNY, hNM] at hnx hd31
    have hNMb : 1 ≤ NM ∧ NM ≤ 12 := by
      rw [← hNM]
      split_ifs <;> omega
    have hdimN := daysInMonth_bounds NY NM
    have hzval : dateToDays Y M a = civilDays NY NM (a - daysInMonth Y M) := by
      rw [hdd, civilDays_day_shift NY NM (a - daysInMonth Y M), hnx]
      ring
    have hrt := civilDays_roundtrip NY NM (a - daysInMonth Y M) hNMb.1 hNMb.2
      (by omega) (by omega)
    have hy : yearOf (mkDateSec Y M a / 86400) = NY := by
      simp only [mkDateSec]
      rw [sec_div, hzval]
      exact hrt.1
    have hm : monthOf (mkDateSec Y M a / 86400) = NM := by
      simp only [mkDateSec]
      rw [sec_div, hzval]
      exact hrt.2.1
    simp only [shiftWithClamp]
    rw [hy, hm, lastDayOf NY NM hNMb.1 hNMb.2, hd31, if_neg (by omega)]
    simp only [mkDateSec]
    rw [hdd]

theorem prevM_bounds (y m : Int) (h1 : 1 ≤ m) (h2 : m ≤ 12) :
    1 ≤ prevM y m ∧ prevM y m ≤ 12 := by
  simp only [prevM]
  split_ifs <;> omega

theorem nextM_bounds (y m : Int) (h1 : 1 ≤ m) (h2 : m ≤ 12) :
    1 ≤ nextM y m ∧ nextM y m ≤ 12 := by
  simp only [nextM]
  split_ifs <;> omega

theorem next_start (y m : Int) (h1 : 1 ≤ m) (h2 : m ≤ 12) :
    civilDays (nextY y m) (nextM y m) 1 = civilDays y m 1 + daysInMonth y m := by
  have h := civilDays_month_succ y m h1 h2
  simp only [nextY, nextM]
  by_cases hm : 12 < m + 1
  · have hm12 : m = 12 := by omega
    rw [if_pos hm, if_pos hm, hm12]
    rw [hm12] at h
    norm_num at h
    exact h
  · rw [if_neg hm, if_neg hm]
    rw [if_neg (by omega), if_neg (by omega)] at h
    exact h

theorem prev_start (y m : Int) (h1 : 1 ≤ m) (h2 : m ≤ 12) :
    civilDays y m 1
      = civilDays (prevY y m) (prevM y m) 1 + daysInMonth (prevY y m) (prevM y m) := by
  have h := civilDays_month_succ (prevY y m) (prevM y m)
    (prevM_bounds y m h1 h2).1 (prevM_bounds y m h1 h2).2
  by_cases hm : m - 1 < 1
  · have hm1 : m = 1 := by omega
    simp only [prevY, prevM, if_pos hm] at h ⊢
    norm_num at h
    rw [hm1]
    exact h
  · simp only [prevY, prevM, if_neg hm] at h ⊢
    rw [if_neg (by omega), if_neg (by omega)] at h
    rw [show m - 1 + 1 = m from by ring] at h
    exact h

/-- Cycle-window calculation of `GetInstanceInfo` (textually identical in the
`reset_day` and the expiry branch, which differ only in where the anchor
day-of-month comes from): the candidate is the anchor day placed in `now`'s
year and month through `time.Date` (no clamping), the past/future test is
`Before(now) || Equal(now.Truncate(24h))` for the last boundary and
`After(now)` for the next one, and the shifted month goes through
`shiftWithClamp`.  Times are epoch seconds, Local = UTC. -/
def computeCycle (anchorDay n : Int) : Int × Int :=
  let y := yearOf (n / 86400)
  let m := monthOf (n / 86400)
  let cand := mkDateSec y m anchorDay
  let lastReset :=
    if cand < n ∨ cand = 86400 * (n / 86400) then cand
    else shiftWithClamp (prevY y m) (prevM y m) anchorDay
  let nextReset :=
    if n < cand then cand
    else shiftWithClamp (nextY y m) (nextM y m) anchorDay
  (lastReset, nextReset)

theorem computeCycle_past (a n : Int) (ha1 : 1 ≤ a) (ha2 : a ≤ 31)
    (hc : mkDateSec (yearOf (n / 86400)) (monthOf (n / 86400)) a ≤ n) :
    (computeCycle a n).1 = mkDateSec (yearOf (n / 86400)) (monthOf (n / 86400)) a ∧
    (computeCycle a n).2
      = 86400 * (civilDays (nextY (yearOf (n / 86400)) (monthOf (n / 86400)))
          (nextM (yearOf (n / 86400)) (monthOf (n / 86400))) 1 + a - 1) := by
  have hval := civil_valid (n / 86400)
  have hcond : mkDateSec (yearOf (n / 86400)) (monthOf (n / 86400)) a < n ∨
      mkDateSec (yearOf (n / 86400)) (monthOf (n / 86400)) a = 86400 * (n / 86400) := by
    simp only [mkDateSec] at hc ⊢
    omega
  have hnb := nextM_bounds (yearOf (n / 86400)) (monthOf (n / 86400)) hval.1 hval.2.1
  constructor
  · simp only [computeCycle]
    rw [if_pos hcond]
  · simp only [computeCycle]
    rw [if_neg (not_lt.mpr hc)]
    exact shiftWithClamp_eq _ _ a hnb.1 hnb.2 ha1 ha2

theorem computeCycle_future (a n : Int) (ha1 : 1 ≤ a) (ha2 : a ≤ 31)
    (hc : n < mkDateSec (yearOf (n / 86400)) (monthOf (n / 86400)) a) :
    (computeCycle a n).1
      = 86400 * (civilDays (prevY (yearOf (n / 86400)) (monthOf (n / 86400)))
          (prevM (yearOf (n / 86400)) (monthOf (n / 86400))) 1 + a - 1) ∧
    (computeCycle a n).2 = mkDateSec (yearOf (n / 86400)) (monthOf (n / 86400)) a := by
  have hval := civil_valid (n / 86400)
  have hcond : ¬ (mkDateSec (yearOf (n / 86400)) (monthOf (n / 86400)) a < n ∨
      mkDateSec (yearOf (n / 86400)) (monthOf (n / 86400)) a = 86400 * (n / 86400)) := by
    simp only [mkDateSec] at hc ⊢
    omega
  have hpb := prevM_bounds (yearOf (n / 86400)) (monthOf (n / 86400)) hval.1 hval.2.1
  constructor
  · simp only [computeCycle]
    rw [if_neg hcond]
    exact shiftWithClamp_eq _ _ a hpb.1 hpb.2 ha1 ha2
  · simp only [computeCycle]
    rw [if_pos hc]

theorem computeCycle_window (a n : Int) (ha1 : 1 ≤ a) (ha2 : a ≤ 29) :
    (computeCycle a n).1 ≤ n ∧ n < (computeCycle a n).2 := by
  have hval := civil_valid (n / 86400)
  obtain ⟨hm1, hm2, hd1, hd2, hz⟩ := hval
  have hdim := daysInMonth_bounds (yearOf (n / 86400)) (monthOf (n / 86400))
  have hday := civilDays_day_shift (yearOf (n / 86400)) (monthOf (n / 86400)) (dayOf (n / 86400))
  have hns := next_start (yearOf (n / 86400)) (monthOf (n / 86400)) hm1 hm2
  have hps := prev_start (yearOf (n / 86400)) (monthOf (n / 86400)) hm1 hm2
  have hdimP := daysInMonth_bounds (prevY (yearOf (n / 86400)) (monthOf (n / 86400)))
    (prevM (yearOf (n / 86400)) (monthOf (n / 86400)))
  have hcand : mkDateSec (yearOf (n / 86400)) (monthOf (n / 86400)) a
      = 86400 * (civilDays (yearOf (n / 86400)) (monthOf (n / 86400)) 1 + a - 1) := by
    simp only [mkDateSec]
    rw [dateToDays_id _ _ _ hm1 hm2]
  rcases le_or_lt (mkDateSec (yearOf (n / 86400)) (monthOf (n / 86400)) a) n with hc | hc
  · obtain ⟨he1, he2⟩ := computeCycle_past a n ha1 (by omega) hc
    rw [he1, he2, hns]
    constructor
    · exact hc
    · omega
  · obtain ⟨he1, he2⟩ := computeCycle_future a n ha1 (by omega) hc
    rw [he1, he2]
    rw [hps] at hcand
    constructor
    · omega
    · exact hc
/-- The window string for the cycle-traffic query: the elapsed time since the
last reset, truncated to whole days (`calculateDaysDifference`) and rendered by
`formatDuration` (`time.Duration(daysDiff*24) * time.Hour`). -/
def calculateDaysDifference (nowSec lastSec : Int) : Int :=
  let daysDiff := (nowSec - lastSec) / 86400
  if daysDiff < 0 then -daysDiff else daysDiff

/-- Go `formatDuration` / `utils.FormatDuration`.  A `time.Duration` is modelled
as whole seconds: every call site passes a whole-second duration, where Go's
`int(d.Hours())`, `int(d.Minutes()) % 60` and `int(d.Seconds()) % 60` coincide
with the integer divisions below on the non-negative domain in use. -/
def formatDuration (d : Int) : String :=
  let hours := d / 3600
  let minutes := d / 60 % 60
  let seconds := d % 60
  if 24 ≤ hours then toString (hours / 24) ++ "d"
  else if 0 < minutes then toString hours ++ "h" ++ toString minutes ++ "m"
  else if 0 < seconds then toString hours ++ "h" ++ toString minutes ++ "m" ++ toString seconds ++ "s"
  else toString hours ++ "h"

def cycleWindowStr (anchorDay n : Int) : String :=
  formatDuration (calculateDaysDifference n (computeCycle anchorDay n).1 * 86400)

/-- Renders a non-negative rational with exactly two decimal places, rounding
to the nearest hundredth with ties to even, as Go's `%.2f` does; byte counts
(float64 in Go) are modelled as rationals.  `n` is the round-half-even value of
`q * 100`, computed on the numerator and denominator directly. -/
def formatTwoDecimals (q : ℚ) : String :=
  let num := 100 * q.num
  let den := (q.den : Int)
  let n :=
    if 2 * (num % den) < den then num / den
    else if den < 2 * (num % den) then num / den + 1
    else if (num / den) % 2 = 0 then num / den else num / den + 1
  toString (n / 100) ++ "." ++ (if n % 100 < 10 then "0" ++ toString (n % 100) else toString (n % 100))

/-- Go `FormatBytes`: binary thresholds KB = 1024, MB = KB*1024, GB = MB*1024,
TB = GB*1024, checked from the top. -/
def FormatBytes (bytes : ℚ) : String :=
  if 1099511627776 ≤ bytes then formatTwoDecimals (bytes / 1099511627776) ++ " TiB"
  else if 1073741824 ≤ bytes then formatTwoDecimals (bytes / 1073741824) ++ " GiB"
  else if 1048576 ≤ bytes then formatTwoDecimals (bytes / 1048576) ++ " MiB"
  else if 1024 ≤ bytes then formatTwoDecimals (bytes / 1024) ++ " KiB"
  else formatTwoDecimals bytes ++ " B"

/-- Go `FormatBytesPerSecond`: same thresholds, `"/s"` units. -/
def FormatBytesPerSecond (bytesPerSecond : ℚ) : String :=
  if 1099511627776 ≤ bytesPerSecond then formatTwoDecimals (bytesPerSecond / 1099511627776) ++ " TiB/s"
  else if 1073741824 ≤ bytesPerSecond then formatTwoDecimals (bytesPerSecond / 1073741824) ++ " GiB/s"
  else if 1048576 ≤ bytesPerSecond then formatTwoDecimals (bytesPerSecond / 1048576) ++ " MiB/s"
  else if 1024 ≤ bytesPerSecond then formatTwoDecimals (bytesPerSecond / 1024) ++ " KiB/s"
  else formatTwoDecimals bytesPerSecond ++ " B/s"

def CalculateTraffic (transmitBytes receiveBytes : ℚ) : ℚ × ℚ × ℚ :=
  (transmitBytes + receiveBytes, receiveBytes / 1073741824, transmitBytes / 1073741824)

/-- Go `calculateTimeLeft`: integer year/month/day split with Go's
toward-zero conversions (`Int.tdiv`). -/
def calculateTimeLeft (t : Int) : Int × Int × Int :=
  let yearsLeft := Int.tdiv t 31536000
  let monthsLeft := Int.tdiv t 2592000 - yearsLeft * 12
  let daysLeft := Int.tdiv t 86400 - yearsLeft * 365 - monthsLeft * 30
  (yearsLeft, monthsLeft, daysLeft)

/-- The `key="value"` matcher terms of `BuildLabelMatchers`: every label except
the excluded bookkeeping keys, in label order (a label set is modelled as an
association list, Go map iteration order being unspecified). -/
def matcherTerms (labels : List (String × String)) : List String :=
  (labels.filter (fun kv =>
      !(kv.1 == "__name__" || kv.1 == "expiry" || kv.1 == "price" || kv.1 == "info"
        || kv.1 == "cycle" || kv.1 == "job" || kv.1 == "cpu"))).map
    (fun kv => kv.1 ++ "=\"" ++ kv.2 ++ "\"")

/-- Go `BuildLabelMatchers`: comma-joined matcher terms, with the (vacuous)
trailing-comma strip of the source (`strings.HasSuffix(result, ",")` read off
the final character). -/
def BuildLabelMatchers (labels : List (String × String)) : String :=
  let result := String.intercalate "," (matcherTerms labels)
  if result.data.getLast? = some ',' then result.dropRight 1 else result

/-- Prometheus query result variants (`model.Value`): instant vectors carry one
sample per series, range matrices carry a list of samples per series. -/
inductive PromValue where
  | vector : List (List (String × String) × ℚ) → PromValue
  | matrix : List (List (String × String) × List ℚ) → PromValue
  | scalar : ℚ → PromValue
  | none : PromValue
deriving DecidableEq

/-- Go `GetFloatFromPromResult`: first sample of a non-empty vector, else 0. -/
def GetFloatFromPromResult (result : PromValue) : ℚ :=
  match result with
  | .vector (s :: _) => s.2
  | _ => 0

/-- The scalar extraction inside `QueryRange`: for a non-empty matrix it reads
`Values[len(Values)-1]` of the first series — an index that panics when that
series has no samples (modelled as `Option.none`); any other result stays 0. -/
def queryRangeExtract (queryResult : PromValue) : Option ℚ :=
  match queryResult with
  | .matrix (s :: _) => s.2.getLast?
  | _ => some 0

/-- Splits a character list at dashes (the separators of the `2006-01-02`
reference layout). -/
def splitOnDash (cs : List Char) : List (List Char) :=
  match cs with
  | [] => [[]]
  | c :: rest =>
    if c = '-' then [] :: splitOnDash rest
    else match splitOnDash rest with
      | [] => [[c]]
      | g :: gs => (c :: g) :: gs

/-- Decimal value of a digit group. -/
def digitsVal (cs : List Char) : Nat :=
  cs.foldl (fun acc c => 10 * acc + (c.toNat - 48)) 0

/-- Go `time.Parse("2006-01-02", s)`: fixed-width digit groups separated by
dashes, with the month and the day validated against the month's length. -/
def parseDate (s : String) : Option (Int × Int × Int) :=
  match splitOnDash s.data with
  | [ys, ms, ds] =>
    if ys.length == 4 && ms.length == 2 && ds.length == 2 &&
        ys.all Char.isDigit && ms.all Char.isDigit && ds.all Char.isDigit then
      let y : Int := (digitsVal ys : Nat)
      let m : Int := (digitsVal ms : Nat)
      let d : Int := (digitsVal ds : Nat)
      if 1 ≤ m ∧ m ≤ 12 ∧ 1 ≤ d ∧ d ≤ daysInMonth y m then some (y, m, d) else Option.none
    else Option.none
  | _ => Option.none

/-- Go map access `labels[k]`: empty string when the key is absent. -/
def lookupLabel (labels : List (String × String)) (k : String) : String :=
  match labels.find? (fun kv => kv.1 == k) with
  | some kv => kv.2
  | Option.none => ""

/-- Outcomes of the backend sub-queries issued by `GetInstanceInfo`, one per
sub-fetch, abstracting the network calls. -/
structure SubResults where
  cycleTraffic : Except String (ℚ × ℚ)
  bootTime : Except String String
  naturalMonth : Except String (ℚ × ℚ)
  yesterday : Except String (ℚ × ℚ)
  daily : Except String (ℚ × ℚ)
  networkRate : Except String (ℚ × ℚ)
  resources : Except String (ℚ × ℚ × ℚ × ℚ × ℚ × ℚ × ℚ)

/-- The values `GetInstanceInfo` interpolates into its HTML report (the
display-only string assembly is omitted; each field is a value computed by the
function body). -/
structure InstanceReport where
  instanceLabel : String
  infoLabel : String
  priceLabel : String
  cycleLabel : String
  expiryStr : String
  bootTime : String
  lastResetAt : Int
  nextResetAt : Int
  cycleWindow : String
  timeLeft : Int × Int × Int
  cycleTraffic : ℚ × ℚ
  naturalMonth : ℚ × ℚ
  yesterday : ℚ × ℚ
  daily : ℚ × ℚ
  networkRate : ℚ × ℚ
  resources : ℚ × ℚ × ℚ × ℚ × ℚ × ℚ × ℚ
deriving DecidableEq

/-- Control flow of `GetInstanceInfo` (second revision): expiry parse and the
cycle-traffic, natural-month, yesterday and daily fetches are fatal; boot time,
network rate and the resource snapshot are logged and degrade to their zero
values. -/
def GetInstanceInfo (labels : List (String × String)) (now : Int) (q : SubResults) :
    Except String InstanceReport :=
  let expiryStr := lookupLabel labels "expiry"
  let resetDayStr := lookupLabel labels "reset_day"
  match parseDate expiryStr with
  | Option.none => .error "Failed to parse expiry date"
  | some expiry =>
    let anchorRes : Except String Int :=
      if resetDayStr ≠ "" then
        match parseDate resetDayStr with
        | Option.none => .error "Failed to parse reset day"
        | some r => .ok r.2.2
      else .ok expiry.2.2
    match anchorRes with
    | .error e => .error e
    | .ok anchorDay =>
      let lastReset := (computeCycle anchorDay now).1
      let nextReset := (computeCycle anchorDay now).2
      let duration := cycleWindowStr anchorDay now
      match q.cycleTraffic with
      | .error e => .error ("Failed to query reset day traffic: " ++ e)
      | .ok cyc =>
        let bootTime := match q.bootTime with | .ok s => s | .error _ => ""
        match q.naturalMonth with
        | .error e => .error ("Failed to query natural month traffic: " ++ e)
        | .ok nm =>
          match q.yesterday with
          | .error e => .error ("Failed to query yesterday traffic: " ++ e)
          | .ok yd =>
            match q.daily with
            | .error e => .error ("Failed to query natural daily traffic: " ++ e)
            | .ok dl =>
              let rate := match q.networkRate with | .ok r => r | .error _ => ((0 : ℚ), (0 : ℚ))
              let res := match q.resources with
                | .ok r => r
                | .error _ => ((0 : ℚ), (0 : ℚ), (0 : ℚ), (0 : ℚ), (0 : ℚ), (0 : ℚ), (0 : ℚ))
              .ok {
                instanceLabel := lookupLabel labels "instance"
                infoLabel := lookupLabel labels "info"
                priceLabel := lookupLabel labels "price"
                cycleLabel := lookupLabel labels "cycle"
                expiryStr := expiryStr
                bootTime := bootTime
                lastResetAt := lastReset
                nextResetAt := nextReset
                cycleWindow := duration
                timeLeft := calculateTimeLeft (mkDateSec expiry.1 expiry.2.1 expiry.2.2 - now)
                cycleTraffic := cyc
                naturalMonth := nm
                yesterday := yd
                daily := dl
                networkRate := rate
                resources := res }

example : parseDate "2024-03-31" = some (2024, 3, 31) := by decide
example : parseDate "2024-3-31" = Option.none := by decide
example : parseDate "2024-02-30" = Option.none := by decide
example : parseDate "" = Option.none := by decide
example : Except.isOk (Except.ok (0 : Int) : Except String Int) = true := by decide
example : formatDuration 90000 = "1d" := by decide
example : FormatBytes 1023 = "1023.00 B" := by decide
example : FormatBytes 1024 = "1.00 KiB" := by
  have h : (1024 : ℚ) / 1024 = 1 := by norm_num
  simp only [FormatBytes]
  rw [if_neg (by norm_num), if_neg (by norm_num), if_neg (by norm_num), if_pos (by norm_num), h]
  decide
example : BuildLabelMatchers [("reset_day", "2024-01-05"), ("instance", "h1")]
    = "reset_day=\"2024-01-05\",instance=\"h1\"" := by decide
/-- C1 (counterexample): with expiry anchor `2024-03-31` and now = 2024-04-15,
the code yields lastResetAt = 2024-03-31 but nextResetAt = 2024-05-01, not the
2024-04-30 the claim predicts: the current-month candidate `time.Date(2024,
April, 31)` is not clamped — Go normalizes it to May 1. -/
theorem c1_counterexample :
    computeCycle 31 (mkDateSec 2024 4 15) = (mkDateSec 2024 3 31, mkDateSec 2024 5 1) ∧
    mkDateSec 2024 5 1 ≠ mkDateSec 2024 4 30 := by decide

/-- C1 (amended): at anchor expiry 2024-03-31 and now = 2024-04-15 the window
is lastResetAt = 2024-03-31, nextResetAt = 2024-05-01; in general the
current-month candidate is the anchor day placed in now's year/month with NO
clamping — when the anchor day exceeds the month's length, `time.Date`
normalization rolls it into the following month at day
`anchor - daysInMonth`. -/
theorem c1_amended :
    computeCycle 31 (mkDateSec 2024 4 15) = (mkDateSec 2024 3 31, mkDateSec 2024 5 1) ∧
    (∀ y m d : Int, 1 ≤ m → m ≤ 12 → daysInMonth y m < d → d ≤ daysInMonth y m + 28 →
      yearOf (dateToDays y m d) = nextY y m ∧ monthOf (dateToDays y m d) = nextM y m ∧
      dayOf (dateToDays y m d) = d - daysInMonth y m) := by
  constructor
  · decide
  · intro y m d h1 h2 h3 h4
    have hdim := daysInMonth_bounds y m
    have hnb := nextM_bounds y m h1 h2
    have hns := next_start y m h1 h2
    have hdimN := daysInMonth_bounds (nextY y m) (nextM y m)
    have heq : dateToDays y m d = civilDays (nextY y m) (nextM y m) (d - daysInMonth y m) := by
      rw [dateToDays_id y m d h1 h2, civilDays_day_shift (nextY y m) (nextM y m) _, hns]
      ring
    rw [heq]
    exact civilDays_roundtrip (nextY y m) (nextM y m) (d - daysInMonth y m)
      hnb.1 hnb.2 (by omega) (by omega)

/-- C1 (witness for the amended rollover law): `time.Date(2024, April, 31)`
is May 1, 2024. -/
theorem c1_amended_witness :
    yearOf (dateToDays 2024 4 31) = nextY 2024 4 ∧
    monthOf (dateToDays 2024 4 31) = nextM 2024 4 ∧
    dayOf (dateToDays 2024 4 31) = 31 - daysInMonth 2024 4 :=
  c1_amended.2 2024 4 31 (by decide) (by decide) (by decide) (by decide)

/-- C2 (counterexample): for anchor day 31 and now = 2025-03-01 12:00 the code
computes lastResetAt = 2025-03-03 (from `time.Date(2025, February, 31)`, which
normalizes to March 3 and whose validity check reads the month of the already
normalized date, so it never clamps), violating `lastResetAt ≤ now`. -/
theorem c2_counterexample :
    (computeCycle 31 (mkDateSec 2025 3 1 + 43200)).1 = mkDateSec 2025 3 3 ∧
    ¬ ((computeCycle 31 (mkDateSec 2025 3 1 + 43200)).1 ≤ mkDateSec 2025 3 1 + 43200) := by
  decide

/-- C2 (amended): for every anchor day 1–29 (whether it came from `reset_day`
or from the expiry date) and every now, the computed window satisfies
`lastResetAt ≤ now < nextResetAt`, and the day-of-month of each boundary is at
most the length of that boundary's month.  For anchor days 30–31 the first
inequality can fail (see the counterexample). -/
theorem c2_amended_window (a n : Int) (ha1 : 1 ≤ a) (ha2 : a ≤ 29) :
    (computeCycle a n).1 ≤ n ∧ n < (computeCycle a n).2 ∧
    dayOf ((computeCycle a n).1 / 86400)
      ≤ daysInMonth (yearOf ((computeCycle a n).1 / 86400)) (monthOf ((computeCycle a n).1 / 86400)) ∧
    dayOf ((computeCycle a n).2 / 86400)
      ≤ daysInMonth (yearOf ((computeCycle a n).2 / 86400)) (monthOf ((computeCycle a n).2 / 86400)) := by
  have hw := computeCycle_window a n ha1 ha2
  exact ⟨hw.1, hw.2, (civil_valid ((computeCycle a n).1 / 86400)).2.2.2.1,
    (civil_valid ((computeCycle a n).2 / 86400)).2.2.2.1⟩

/-- C2 (witness): the amended window invariant at anchor day 15 and
now = 2024-04-20 01:00. -/
theorem c2_window_witness :
    (computeCycle 15 (mkDateSec 2024 4 20 + 3600)).1 ≤ mkDateSec 2024 4 20 + 3600 ∧
    mkDateSec 2024 4 20 + 3600 < (computeCycle 15 (mkDateSec 2024 4 20 + 3600)).2 :=
  ⟨(c2_amended_window 15 (mkDateSec 2024 4 20 + 3600) (by decide) (by decide)).1,
   (c2_amended_window 15 (mkDateSec 2024 4 20 + 3600) (by decide) (by decide)).2.1⟩

/-- C3 (counterexample): a failing natural-month traffic query aborts the
whole report — `GetInstanceInfo` returns an error even though every other
sub-query succeeded, contradicting the claim that this sub-metric is
best-effort. -/
theorem c3_counterexample :
    GetInstanceInfo [("expiry", "2024-03-31")] (mkDateSec 2024 4 15)
      { cycleTraffic := .ok (1, 2), bootTime := .ok "5d", naturalMonth := .error "boom",
        yesterday := .ok (0, 0), daily := .ok (0, 0), networkRate := .ok (0, 0),
        resources := .ok (0, 0, 0, 0, 0, 0, 0) }
      = .error "Failed to query natural month traffic: boom" := by rfl

/-- C3 (amended): the fatal failures of `GetInstanceInfo` are the expiry (and
`reset_day`) parse, the cycle-window traffic fetch, and also the
natural-month, yesterday and today-so-far traffic fetches; only boot time,
network rate and the resource snapshot are best-effort, degrading to their
empty/zero values. -/
theorem c3_amended_degrade (labels : List (String × String)) (now : Int) (q : SubResults)
    (hparse : ∃ e, parseDate (lookupLabel labels "expiry") = some e)
    (hreset : lookupLabel labels "reset_day" = "" ∨
      ∃ r, parseDate (lookupLabel labels "reset_day") = some r)
    (hcyc : ∃ v, q.cycleTraffic = .ok v)
    (hnm : ∃ v, q.naturalMonth = .ok v)
    (hyd : ∃ v, q.yesterday = .ok v)
    (hdl : ∃ v, q.daily = .ok v) :
    (GetInstanceInfo labels now q).isOk = true ∧
    (∀ rep, GetInstanceInfo labels now q = .ok rep →
      ((∃ e, q.bootTime = .error e) → rep.bootTime = "") ∧
      ((∃ e, q.networkRate = .error e) → rep.networkRate = (0, 0)) ∧
      ((∃ e, q.resources = .error e) → rep.resources = (0, 0, 0, 0, 0, 0, 0))) := by
  obtain ⟨e0, hp⟩ := hparse
  obtain ⟨cv, hc⟩ := hcyc
  obtain ⟨nv, hn⟩ := hnm
  obtain ⟨yv, hy⟩ := hyd
  obtain ⟨dv, hdd⟩ := hdl
  have hanchor : ∃ aD, (if lookupLabel labels "reset_day" ≠ "" then
      match parseDate (lookupLabel labels "reset_day") with
      | Option.none => Except.error "Failed to parse reset day"
      | some r => Except.ok r.2.2
    else Except.ok e0.2.2) = (Except.ok aD : Except String Int) := by
    rcases hreset with h | ⟨r, hr⟩
    · exact ⟨e0.2.2, by rw [if_neg (by simp [h])]⟩
    · by_cases hne : lookupLabel labels "reset_day" = ""
      · exact ⟨e0.2.2, by rw [if_neg (by simp [hne])]⟩
      · exact ⟨r.2.2, by rw [if_pos hne, hr]⟩
  obtain ⟨aD, ha⟩ := hanchor
  simp only [GetInstanceInfo, hp, ha, hc, hn, hy, hdd]
  constructor
  · rfl
  · intro rep hrep
    injection hrep with heq
    subst heq
    refine ⟨?_, ?_, ?_⟩ <;> rintro ⟨e, he⟩ <;> simp [he]

/-- C3 (witness): with expiry `2024-03-31` and all mandatory fetches
succeeding, the report is produced even though boot time, network rate and the
resource snapshot all fail. -/
theorem c3_degrade_witness :
    (GetInstanceInfo [("expiry", "2024-03-31"), ("instance", "h1")] (mkDateSec 2024 4 15)
      { cycleTraffic := .ok (1, 2), bootTime := .error "x", naturalMonth := .ok (3, 4),
        yesterday := .ok (5, 6), daily := .ok (7, 8), networkRate := .error "y",
        resources := .error "z" }).isOk = true :=
  (c3_amended_degrade [("expiry", "2024-03-31"), ("instance", "h1")] (mkDateSec 2024 4 15)
    { cycleTraffic := .ok (1, 2), bootTime := .error "x", naturalMonth := .ok (3, 4),
      yesterday := .ok (5, 6), daily := .ok (7, 8), networkRate := .error "y",
      resources := .error "z" }
    ⟨(2024, 3, 31), by decide⟩ (Or.inl (by decide))
    ⟨(1, 2), rfl⟩ ⟨(3, 4), rfl⟩ ⟨(5, 6), rfl⟩ ⟨(7, 8), rfl⟩).1

/-- C4: the `reset_day` bookkeeping label is NOT excluded by
`BuildLabelMatchers` (only `__name__`, `expiry`, `price`, `info`, `cycle`,
`job`, `cpu` are), so a label set carrying `reset_day` forwards it into the
backend filter expression as a `key="value"` term. -/
theorem c4_reset_day_in_filter :
    "reset_day=\"2024-01-05\"" ∈ matcherTerms [("reset_day", "2024-01-05"), ("instance", "h1")] ∧
    BuildLabelMatchers [("reset_day", "2024-01-05"), ("instance", "h1")]
      = "reset_day=\"2024-01-05\",instance=\"h1\"" := by decide

/-- C5: when the current-month candidate equals now exactly (which can only
happen at local midnight, since candidates are midnights), the
`Equal(now.Truncate(24h))` disjunct classifies it as past: lastResetAt is the
candidate itself and nextResetAt is the step-3 next-month shift, not the
future branch. -/
theorem c5_midnight_boundary (a n : Int)
    (h : mkDateSec (yearOf (n / 86400)) (monthOf (n / 86400)) a = n) :
    computeCycle a n = (n, shiftWithClamp (nextY (yearOf (n / 86400)) (monthOf (n / 86400)))
      (nextM (yearOf (n / 86400)) (monthOf (n / 86400))) a) := by
  obtain ⟨t, ht⟩ : ∃ t, mkDateSec (yearOf (n / 86400)) (monthOf (n / 86400)) a = 86400 * t :=
    ⟨dateToDays (yearOf (n / 86400)) (monthOf (n / 86400)) a, rfl⟩
  have hc1 : mkDateSec (yearOf (n / 86400)) (monthOf (n / 86400)) a < n ∨
      mkDateSec (yearOf (n / 86400)) (monthOf (n / 86400)) a = 86400 * (n / 86400) := by
    omega
  have hc2 : ¬ (n < mkDateSec (yearOf (n / 86400)) (monthOf (n / 86400)) a) := by omega
  simp only [computeCycle]
  rw [if_pos hc1, if_neg hc2, h]

/-- C5 (witness): an anchor day 15 with now exactly midnight 2024-04-15 takes
the past branch: the window is [2024-04-15, 2024-05-15). -/
theorem c5_midnight_witness :
    computeCycle 15 (mkDateSec 2024 4 15) = (mkDateSec 2024 4 15, mkDateSec 2024 5 15) := by
  rw [c5_midnight_boundary 15 (mkDateSec 2024 4 15) (by decide)]
  decide

/-- C6: `formatDuration` applies its cases in order — hours ≥ 24 renders whole
days only (lossy), else minutes > 0 renders h+m, else seconds > 0 renders
h+m+s, else plain hours — with the claimed sample outputs. -/
theorem c6_formatDuration_policy :
    (∀ d : Int, 0 ≤ d →
      (86400 ≤ d → formatDuration d = toString (d / 86400) ++ "d") ∧
      (d < 86400 → 0 < d / 60 % 60 →
        formatDuration d = toString (d / 3600) ++ "h" ++ toString (d / 60 % 60) ++ "m") ∧
      (d < 86400 → d / 60 % 60 = 0 → 0 < d % 60 →
        formatDuration d = toString (d / 3600) ++ "h" ++ toString (d / 60 % 60) ++ "m"
          ++ toString (d % 60) ++ "s") ∧
      (d < 86400 → d / 60 % 60 = 0 → d % 60 = 0 → formatDuration d = toString (d / 3600) ++ "h")) ∧
    formatDuration 90000 = "1d" ∧ formatDuration 3661 = "1h1m" ∧
    formatDuration 59 = "0h0m59s" ∧ formatDuration 3600 = "1h" := by
  refine ⟨?_, by decide, by decide, by decide, by decide⟩
  intro d hd
  refine ⟨?_, ?_, ?_, ?_⟩
  · intro h
    simp only [formatDuration]
    rw [if_pos (by omega), show d / 3600 / 24 = d / 86400 from by omega]
  · intro h hm
    simp only [formatDuration]
    rw [if_neg (by omega), if_pos (by omega)]
  · intro h hm hs
    simp only [formatDuration]
    rw [if_neg (by omega), if_neg (by omega), if_pos (by omega)]
  · intro h hm hs
    simp only [formatDuration]
    rw [if_neg (by omega), if_neg (by omega), if_neg (by omega)]

/-- C6 (witness): two whole hours render as plain hours. -/
theorem c6_formatDuration_witness : formatDuration 7200 = "2h" := by
  rw [(c6_formatDuration_policy.1 7200 (by decide)).2.2.2 (by decide) (by decide) (by decide)]
  decide

/-- C7: `FormatBytes` selects its unit by binary thresholds checked from TiB
down, always renders two decimals, and no input below 1024 ever gets a
sub-byte unit; with the claimed sample outputs. -/
theorem c7_FormatBytes_thresholds :
    FormatBytes 1023 = "1023.00 B" ∧ FormatBytes 1024 = "1.00 KiB" ∧
    FormatBytes 1073741824 = "1.00 GiB" ∧
    (∀ q : ℚ, q < 1024 → FormatBytes q = formatTwoDecimals q ++ " B") ∧
    (∀ q : ℚ, 1024 ≤ q → q < 1048576 → FormatBytes q = formatTwoDecimals (q / 1024) ++ " KiB") ∧
    (∀ q : ℚ, 1048576 ≤ q → q < 1073741824 →
      FormatBytes q = formatTwoDecimals (q / 1048576) ++ " MiB") ∧
    (∀ q : ℚ, 1073741824 ≤ q → q < 1099511627776 →
      FormatBytes q = formatTwoDecimals (q / 1073741824) ++ " GiB") ∧
    (∀ q : ℚ, 1099511627776 ≤ q →
      FormatBytes q = formatTwoDecimals (q / 1099511627776) ++ " TiB") := by
  refine ⟨by decide, ?_, ?_, ?_, ?_, ?_, ?_, ?_⟩
  · have h : (1024 : ℚ) / 1024 = 1 := by norm_num
    simp only [FormatBytes]
    rw [if_neg (by norm_num), if_neg (by norm_num), if_neg (by norm_num), if_pos (by norm_num), h]
    decide
  · have h : (1073741824 : ℚ) / 1073741824 = 1 := by norm_num
    simp only [FormatBytes]
    rw [if_neg (by norm_num), if_pos (by norm_num), h]
    decide
  · intro q h
    simp only [FormatBytes]
    rw [if_neg (by linarith), if_neg (by linarith), if_neg (by linarith), if_neg (by linarith)]
  · intro q h1 h2
    simp only [FormatBytes]
    rw [if_neg (by linarith), if_neg (by linarith), if_neg (by linarith), if_pos h1]
  · intro q h1 h2
    simp only [FormatBytes]
    rw [if_neg (by linarith), if_neg (by linarith), if_pos h1]
  · intro q h1 h2
    simp only [FormatBytes]
    rw [if_neg (by linarith), if_pos h1]
  · intro q h1
    simp only [FormatBytes]
    rw [if_pos h1]

/-- C7 (witness): 512 bytes render with the byte unit. -/
theorem c7_FormatBytes_witness : FormatBytes 512 = formatTwoDecimals 512 ++ " B" :=
  c7_FormatBytes_thresholds.2.2.2.1 512 (by norm_num)

/-- C8: `BuildLabelMatchers` drops exactly `__name__`, `expiry`, `price`,
`info`, `cycle`, `job`, `cpu`: a label set of only such keys yields the empty
filter; no produced term carries one of those keys; every other label
contributes its `key="value"` term. -/
theorem c8_label_matcher_exclusion :
    (∀ labels : List (String × String),
      (∀ kv ∈ labels, kv.1 = "__name__" ∨ kv.1 = "expiry" ∨ kv.1 = "price" ∨ kv.1 = "info"
        ∨ kv.1 = "cycle" ∨ kv.1 = "job" ∨ kv.1 = "cpu") →
      BuildLabelMatchers labels = "") ∧
    (∀ labels : List (String × String), ∀ t ∈ matcherTerms labels, ∃ kv, kv ∈ labels ∧
      (kv.1 ≠ "__name__" ∧ kv.1 ≠ "expiry" ∧ kv.1 ≠ "price" ∧ kv.1 ≠ "info"
        ∧ kv.1 ≠ "cycle" ∧ kv.1 ≠ "job" ∧ kv.1 ≠ "cpu") ∧
      t = kv.1 ++ "=\"" ++ kv.2 ++ "\"") ∧
    (∀ labels : List (String × String), ∀ kv ∈ labels,
      kv.1 ≠ "__name__" → kv.1 ≠ "expiry" → kv.1 ≠ "price" → kv.1 ≠ "info" →
      kv.1 ≠ "cycle" → kv.1 ≠ "job" → kv.1 ≠ "cpu" →
      (kv.1 ++ "=\"" ++ kv.2 ++ "\"") ∈ matcherTerms labels) := by
  refine ⟨?_, ?_, ?_⟩
  · intro labels hall
    have hmt : matcherTerms labels = [] := by
      simp only [matcherTerms, List.map_eq_nil_iff, List.filter_eq_nil_iff]
      intro kv hkv
      rcases hall kv hkv with h | h | h | h | h | h | h <;>
        simp [h]
    simp only [BuildLabelMatchers, hmt]
    decide
  · intro labels t ht
    simp only [matcherTerms, List.mem_map] at ht
    obtain ⟨kv, hmem, heq⟩ := ht
    have hf := List.mem_filter.mp hmem
    refine ⟨kv, hf.1, ?_, heq.symm⟩
    have hp := hf.2
    simp only [Bool.not_eq_true', Bool.or_eq_false_iff, beq_eq_false_iff_ne] at hp
    exact ⟨hp.1.1.1.1.1.1, hp.1.1.1.1.1.2, hp.1.1.1.1.2, hp.1.1.1.2, hp.1.1.2, hp.1.2, hp.2⟩
  · intro labels kv hmem h1 h2 h3 h4 h5 h6 h7
    simp only [matcherTerms, List.mem_map]
    refine ⟨kv, List.mem_filter.mpr ⟨hmem, ?_⟩, rfl⟩
    simp only [Bool.not_eq_true', Bool.or_eq_false_iff, beq_eq_false_iff_ne]
    exact ⟨⟨⟨⟨⟨⟨h1, h2⟩, h3⟩, h4⟩, h5⟩, h6⟩, h7⟩

/-- C8 (witness): a bookkeeping-only label set gives an empty filter, and a
mixed set keeps the real host label. -/
theorem c8_label_matcher_witness :
    BuildLabelMatchers [("expiry", "2024-03-31"), ("cycle", "monthly")] = "" ∧
    ("instance" ++ "=\"" ++ "h1" ++ "\"") ∈ matcherTerms [("instance", "h1"), ("expiry", "e")] :=
  ⟨c8_label_matcher_exclusion.1 [("expiry", "2024-03-31"), ("cycle", "monthly")] (by decide),
   c8_label_matcher_exclusion.2.2 [("instance", "h1"), ("expiry", "e")] ("instance", "h1")
     (by decide) (by decide) (by decide) (by decide) (by decide) (by decide) (by decide) (by decide)⟩

/-- C9 (counterexample): the range-query extraction is not total — on a matrix
whose first series has no samples, `Values[len(Values)-1]` indexes position
-1 and panics (modelled as `Option.none`), so extraction does fail on a
backend result. -/
theorem c9_counterexample :
    queryRangeExtract (PromValue.matrix [([], [])]) = Option.none := by decide

/-- C9 (amended): the instant extraction is total — first series' sample, or 0
when no series — and the range extraction returns 0.0 on no series or a
non-matrix result and the last sample of the first series when that series is
non-empty, but panics (`Option.none`) when a matrix's first series has no
samples. -/
theorem c9_amended_extraction :
    (∀ met (q : ℚ) rest, GetFloatFromPromResult (.vector ((met, q) :: rest)) = q) ∧
    GetFloatFromPromResult (.vector []) = 0 ∧
    (∀ ms, GetFloatFromPromResult (.matrix ms) = 0) ∧
    (∀ s, GetFloatFromPromResult (.scalar s) = 0) ∧
    GetFloatFromPromResult .none = 0 ∧
    (∀ met vs rest, queryRangeExtract (.matrix ((met, vs) :: rest)) = vs.getLast?) ∧
    (∀ met vs rest (x : ℚ), queryRangeExtract (.matrix ((met, vs ++ [x]) :: rest)) = some x) ∧
    queryRangeExtract (.matrix []) = some 0 ∧
    (∀ v, queryRangeExtract (.vector v) = some 0) ∧
    (∀ s, queryRangeExtract (.scalar s) = some 0) ∧
    queryRangeExtract .none = some 0 := by
  refine ⟨fun met q rest => rfl, rfl, fun ms => rfl, fun s => rfl, rfl,
    fun met vs rest => rfl, fun met vs rest x => ?_, rfl, fun v => rfl, fun s => rfl, rfl⟩
  simp [queryRangeExtract, List.getLast?_concat]

/-- C10 (counterexample): at anchor day 31 and now = 2025-03-01 12:00 the
computed lastResetAt lies 36 hours in the future, and the code's
`abs(floor(Δ/24h))` gives "2d" while the claimed `floor(|Δ|/24h)` gives
"1d". -/
theorem c10_counterexample :
    cycleWindowStr 31 (mkDateSec 2025 3 1 + 43200) = "2d" ∧
    (computeCycle 31 (mkDateSec 2025 3 1 + 43200)).1 - (mkDateSec 2025 3 1 + 43200) = 129600 ∧
    formatDuration (86400 * (((computeCycle 31 (mkDateSec 2025 3 1 + 43200)).1
      - (mkDateSec 2025 3 1 + 43200)) / 86400)) = "1d" := by decide

/-- C10 (amended): whenever lastResetAt ≤ now — which the cycle calculation
guarantees except in the anchor 30/31 rollover corner — the window string is
`formatDuration` of 24h times the floor of the elapsed time in days, and in
particular it is "0h" for every now within 24 hours after lastResetAt. -/
theorem c10_amended_window_string (a n : Int)
    (h : (computeCycle a n).1 ≤ n) :
    cycleWindowStr a n = formatDuration (86400 * ((n - (computeCycle a n).1) / 86400)) ∧
    (n < (computeCycle a n).1 + 86400 → cycleWindowStr a n = "0h") := by
  have hdd : calculateDaysDifference n ((computeCycle a n).1) = (n - (computeCycle a n).1) / 86400 := by
    simp only [calculateDaysDifference]
    rw [if_neg (by omega)]
  constructor
  · simp only [cycleWindowStr]
    rw [hdd, Int.mul_comm]
  · intro h2
    simp only [cycleWindowStr]
    rw [hdd, show (n - (computeCycle a n).1) / 86400 = 0 from by omega]
    decide

/-- C10 (witness): one hour after a reset boundary the window string is
"0h". -/
theorem c10_window_string_witness :
    cycleWindowStr 15 (mkDateSec 2024 4 15 + 3600) = "0h" :=
  (c10_amended_window_string 15 (mkDateSec 2024 4 15 + 3600) (by decide)).2 (by decide)
